import Mathlib

/-!
Shallow embedding of the riscv-vm emulator (src/src/cpu.rs, src/src/utils.rs,
src/src/constants.rs, src/src/monitored_memory.rs, src/src/main.rs).

Machine integers are modelled as `Nat` (unsigned views) and `Int` (signed
views) with explicit reductions modulo `2 ^ w` where the Rust code relies on
fixed-width wraparound.  Guest memory is a `List Nat` of byte values.  Fallible
paths (Rust panics / `Result` errors) are modelled with `Except`.
-/

/-- Two's complement reinterpretation of a `u64` bit pattern as an `i64`
(`x as i64` in Rust).  Callers always supply `x < 2 ^ 64`. -/
def toI64 (x : Nat) : Int :=
  if x % 2 ^ 64 < 2 ^ 63 then ((x % 2 ^ 64 : Nat) : Int)
  else ((x % 2 ^ 64 : Nat) : Int) - 2 ^ 64

/-- Two's complement reinterpretation of an `i64` value as a `u64`
(`v as u64` in Rust); also realises wrapping `i64` arithmetic when applied
to an exact integer sum. -/
def toU64 (v : Int) : Nat :=
  (v % (2 ^ 64 : Int)).toNat

/-- Truncation of an integer to `i32` two's complement range
(`v as i32` in Rust, and the wraparound of release-mode `i32` addition). -/
def wrapI32 (v : Int) : Int :=
  let m := v % (2 ^ 32 : Int)
  if m < 2 ^ 31 then m else m - 2 ^ 32

/-- Rust `u32::from_le_bytes` on a 4-byte slice: little-endian recomposition.
Each entry is reduced mod 256 since Rust bytes are `u8`. -/
def u32_from_le_bytes (b : List Nat) : Nat :=
  match b with
  | [b0, b1, b2, b3] =>
      (b0 % 256) + (b1 % 256) * 2 ^ 8 + (b2 % 256) * 2 ^ 16 + (b3 % 256) * 2 ^ 24
  | _ => 0

/-- Functional update of the register file (`self.gprs[rd] = v`). -/
def setReg (g : Nat → Nat) (i v : Nat) : Nat → Nat :=
  fun j => if j = i then v else g j

/-- Rust slice indexing `&mem[lo..hi]`: defined exactly when
`lo ≤ hi ∧ hi ≤ mem.length`, otherwise the Rust code panics. -/
def readRange (mem : List Nat) (lo hi : Nat) : Option (List Nat) :=
  if lo ≤ hi ∧ hi ≤ mem.length then some ((mem.drop lo).take (hi - lo)) else none

/-- Rust `mem[start..start+data.length].copy_from_slice(data)` under the
precondition `start + data.length ≤ mem.length` (checked by callers). -/
def writeRange (mem : List Nat) (start : Nat) (data : List Nat) : List Nat :=
  mem.take start ++ data ++ mem.drop (start + data.length)

/-!
Sign extension (src/src/utils.rs, macro `impl_sign_extend`).

The Rust macro produces, for each width `bits ∈ {8,16,32,64}`, the function
`(value << (bits - size)) as iN >> (bits - size)` on the `bits`-wide machine
types: the left shift drops bits above position `bits`, the cast reinterprets
the pattern in two's complement, and `>>` on a signed type is an arithmetic
shift, i.e. floor division by `2 ^ (bits - size)`.  The source asserts
`0 < size ∧ size ≤ bits`; every call site and theorem below stays inside that
range.
-/

/-- Generic body of the `impl_sign_extend!` macro at source width `bits`. -/
def sign_extend_val (bits value size : Nat) : Int :=
  let k := bits - size
  let shifted := (value <<< k) % 2 ^ bits
  let signed : Int :=
    if shifted < 2 ^ (bits - 1) then (shifted : Int) else (shifted : Int) - 2 ^ bits
  Int.fdiv signed (2 ^ k)

/-- Rust `sign_extend_u8_to_i8` (utils.rs). -/
def sign_extend_u8_to_i8 (value size : Nat) : Int := sign_extend_val 8 value size

/-- Rust `sign_extend_u16_to_i16` (utils.rs). -/
def sign_extend_u16_to_i16 (value size : Nat) : Int := sign_extend_val 16 value size

/-- Rust `sign_extend_u32_to_i32` (utils.rs). -/
def sign_extend_u32_to_i32 (value size : Nat) : Int := sign_extend_val 32 value size

/-- Rust `sign_extend_u64_to_i64` (utils.rs). -/
def sign_extend_u64_to_i64 (value size : Nat) : Int := sign_extend_val 64 value size


/-!
UTF-8 decoding, modelling Rust `String::from_utf8` (used by the `write`
syscall in cpu.rs): returns the sequence of Unicode scalar values when the
byte list is valid UTF-8 (rejecting overlong forms, surrogates, and values
above `0x10FFFF`), and `none` otherwise.
-/

/-- Decode a byte list as UTF-8 into its list of Unicode scalar values. -/
def utf8Decode : List Nat → Option (List Nat)
  | [] => some []
  | b :: rest =>
    if b < 0x80 then
      (utf8Decode rest).map (fun t => b :: t)
    else if b < 0xC2 then none
    else if b ≤ 0xDF then
      match rest with
      | c :: rest2 =>
        if 0x80 ≤ c ∧ c ≤ 0xBF then
          (utf8Decode rest2).map (fun t => ((b - 0xC0) * 64 + (c - 0x80)) :: t)
        else none
      | [] => none
    else if b ≤ 0xEF then
      match rest with
      | c :: d :: rest3 =>
        let lo := if b = 0xE0 then 0xA0 else 0x80
        let hi := if b = 0xED then 0x9F else 0xBF
        if lo ≤ c ∧ c ≤ hi ∧ 0x80 ≤ d ∧ d ≤ 0xBF then
          (utf8Decode rest3).map
            (fun t => ((b - 0xE0) * 4096 + (c - 0x80) * 64 + (d - 0x80)) :: t)
        else none
      | _ => none
    else if b ≤ 0xF4 then
      match rest with
      | c :: d :: e :: rest4 =>
        let lo := if b = 0xF0 then 0x90 else 0x80
        let hi := if b = 0xF4 then 0x8F else 0xBF
        if lo ≤ c ∧ c ≤ hi ∧ 0x80 ≤ d ∧ d ≤ 0xBF ∧ 0x80 ≤ e ∧ e ≤ 0xBF then
          (utf8Decode rest4).map
            (fun t =>
              ((b - 0xF0) * 262144 + (c - 0x80) * 4096 + (d - 0x80) * 64 + (e - 0x80)) :: t)
        else none
      | _ => none
    else none


/-!
Register-index constants (src/src/constants.rs): `a0`–`a7` are fixed aliases
for `x10`–`x17`.
-/

/-- Register alias `a0` (= `x10`, constants.rs). -/
def a0 : Nat := 10

/-- Register alias `a1` (= `x11`, constants.rs). -/
def a1 : Nat := 11

/-- Register alias `a2` (= `x12`, constants.rs). -/
def a2 : Nat := 12

/-- Register alias `a7` (= `x17`, constants.rs). -/
def a7 : Nat := 17

/-- Modelled from the spec: the constant `ECALL_WRITE` is imported by cpu.rs
from the constants module but its definition is not present under src/; the
spec fixes the write syscall number as `a7 == 64`, matching the literal the
`ecall` dispatch in cpu.rs matches on. -/
def ECALL_WRITE : Nat := 64

/-- Modelled from the spec: the constant `ECALL_EXIT` is imported by cpu.rs
from the constants module but its definition is not present under src/; the
spec fixes the exit syscall number as `a7 == 93`, matching the literal the
`ecall` dispatch in cpu.rs matches on. -/
def ECALL_EXIT : Nat := 93

/-!
CPU state and events (src/src/cpu.rs).  The crossbeam event channel is
modelled by returning the list of events a step sends, in send order.
-/

/-- Events sent on the CPU event channel (cpu.rs `enum CpuEvent`).  `Write`
carries the Unicode scalar values of the decoded `String`. -/
inductive CpuEvent where
  | Write (text : List Nat)
  | Exit (exit_code : Int)
deriving DecidableEq, Repr

/-- Fatal conditions: every Rust `panic!` / failed `assert!` in the modelled
code, tagged by the error taxonomy of the spec. -/
inductive CpuError where
  | outOfBounds
  | unimplemented
  | malformedOutput
  | assertionFailed
deriving DecidableEq, Repr

/-- CPU state (cpu.rs `struct Cpu`): 32 general-purpose registers (indices
0–31 are the ones used; values are `u64` patterns), the program counter,
flat byte-addressable memory, and the run state. -/
structure Cpu where
  gprs : Nat → Nat
  pc : Nat
  memory : List Nat
  is_running : Bool
  exit_code : Int

/-- Cpu.new (cpu.rs): all registers zero, `pc = 0`, running, exit code 0, and
a zero-filled memory of the requested size (`MonitoredMemory::new` maps an
anonymous region, which is zero-initialised). -/
def Cpu.new (memory_size : Nat) : Cpu :=
  { gprs := fun _ => 0
    pc := 0
    memory := List.replicate memory_size 0
    is_running := true
    exit_code := 0 }

/-!
Instruction field extraction (cpu.rs): opcode is the low 7 bits, `rd` bits
7–11, funct3 bits 12–14, `rs1` bits 15–19, the I-type immediate bits 20–31.
-/

/-- Destination register field: `(instruction >> 7) & 0x1f`. -/
def rd_field (instruction : Nat) : Nat := (instruction >>> 7) &&& 0x1f

/-- Source register field: `(instruction >> 15) & 0x1f`. -/
def rs1_field (instruction : Nat) : Nat := (instruction >>> 15) &&& 0x1f

/-- funct3 field: `instruction >> 12 & 0x7`. -/
def funct3_field (instruction : Nat) : Nat := (instruction >>> 12) &&& 0x7

/-- I-type immediate field: `instruction >> 20 & 0xFFF`. -/
def imm_i_field (instruction : Nat) : Nat := (instruction >>> 20) &&& 0xFFF

/-!
The value each writing instruction stores, taken verbatim from the handler
bodies in cpu.rs.  The handlers below and the write-observation statement of
the register-zero claim share these definitions.
-/

/-- Value stored by `handle_load_upper_immediate`:
`((instruction & 0xFFFFF) as u64) << 12`.  Note the source masks the low
20 bits of the whole word (bits 0–19), not bits 12–31. -/
def lui_value (instruction : Nat) : Nat :=
  ((instruction &&& 0xFFFFF) <<< 12) % 2 ^ 64

/-- Value stored by `handle_addi`:
`(gprs[rs1] as i64 + sign_extend_u64_to_i64(imm, 20)) as u64`, with the
release-mode wraparound of `i64` addition. -/
def addi_value (cpu : Cpu) (instruction : Nat) : Nat :=
  toU64 (toI64 (cpu.gprs (rs1_field instruction)) +
    sign_extend_u64_to_i64 (imm_i_field instruction) 20)

/-- Value stored by `handle_addiw`:
`(gprs[rs1] as i32 + (sign_extend_u64_to_i64(imm, 20) as i32)) as u64`:
both operands truncated to `i32`, wrapping 32-bit addition, and the `i32`
result sign-extended to `u64` by the final cast. -/
def addiw_value (cpu : Cpu) (instruction : Nat) : Nat :=
  toU64 (wrapI32 (wrapI32 ((cpu.gprs (rs1_field instruction) : Nat) : Int) +
    wrapI32 (sign_extend_u64_to_i64 (imm_i_field instruction) 20)))

/-- Effective address of `handle_load_byte` / `handle_load_word`:
`(gprs[rs1] as i64 + sign_extend_u64_to_i64(imm, 12)) as usize`. -/
def load_effective_address (cpu : Cpu) (instruction : Nat) : Nat :=
  toU64 (toI64 (cpu.gprs (rs1_field instruction)) +
    sign_extend_u64_to_i64 (imm_i_field instruction) 12)

/-!
Instruction handlers (cpu.rs `impl Cpu`).  Handlers that can only mutate the
state are `Cpu → Nat → Except CpuError Cpu`; the system path also produces
events.  Every Rust `assert!`/`panic!` becomes an `Except.error`.
-/

/-- handle_load_upper_immediate (cpu.rs): asserts the LUI opcode, discards
the write when `rd == 0`, otherwise stores `lui_value`. -/
def handle_load_upper_immediate (cpu : Cpu) (instruction : Nat) : Except CpuError Cpu :=
  if instruction &&& 0x7f ≠ 0b0110111 then .error .assertionFailed
  else if rd_field instruction = 0 then .ok cpu
  else .ok { cpu with
    gprs := setReg cpu.gprs (rd_field instruction) (lui_value instruction) }

/-- handle_addi (cpu.rs): discards the write when `rd == 0`, otherwise stores
`addi_value`. -/
def handle_addi (cpu : Cpu) (instruction : Nat) : Except CpuError Cpu :=
  if rd_field instruction = 0 then .ok cpu
  else .ok { cpu with
    gprs := setReg cpu.gprs (rd_field instruction) (addi_value cpu instruction) }

/-- handle_i_type_instruction (cpu.rs): dispatch on funct3; only `000` (ADDI)
is implemented. -/
def handle_i_type_instruction (cpu : Cpu) (instruction : Nat) : Except CpuError Cpu :=
  if funct3_field instruction = 0b000 then handle_addi cpu instruction
  else .error .unimplemented

/-- handle_addiw (cpu.rs): discards the write when `rd == 0`, otherwise
stores `addiw_value`. -/
def handle_addiw (cpu : Cpu) (instruction : Nat) : Except CpuError Cpu :=
  if rd_field instruction = 0 then .ok cpu
  else .ok { cpu with
    gprs := setReg cpu.gprs (rd_field instruction) (addiw_value cpu instruction) }

/-- handle_op32_type_instruction (cpu.rs): dispatch on funct3; only `000`
(ADDIW) is implemented. -/
def handle_op32_type_instruction (cpu : Cpu) (instruction : Nat) : Except CpuError Cpu :=
  if funct3_field instruction = 0b000 then handle_addiw cpu instruction
  else .error .unimplemented

/-- handle_load_byte (cpu.rs): asserts the LOAD opcode, discards the write
when `rd == 0`, otherwise reads one byte at the effective address (a panic —
here `outOfBounds` — when the address is not below `memory.len()`). -/
def handle_load_byte (cpu : Cpu) (instruction : Nat) : Except CpuError Cpu :=
  if instruction &&& 0x7f ≠ 0b0000011 then .error .assertionFailed
  else if rd_field instruction = 0 then .ok cpu
  else
    match cpu.memory.get? (load_effective_address cpu instruction) with
    | none => .error .outOfBounds
    | some byte_value =>
        .ok { cpu with gprs := setReg cpu.gprs (rd_field instruction) byte_value }

/-- handle_load_word (cpu.rs): asserts the LOAD opcode, discards the write
when `rd == 0`, otherwise reads the 4-byte little-endian word at the
effective address. -/
def handle_load_word (cpu : Cpu) (instruction : Nat) : Except CpuError Cpu :=
  if instruction &&& 0x7f ≠ 0b0000011 then .error .assertionFailed
  else if rd_field instruction = 0 then .ok cpu
  else
    match readRange cpu.memory (load_effective_address cpu instruction)
      (load_effective_address cpu instruction + 4) with
    | none => .error .outOfBounds
    | some bytes =>
        .ok { cpu with
          gprs := setReg cpu.gprs (rd_field instruction) (u32_from_le_bytes bytes) }

/-- handle_other_i_type_instruction (cpu.rs): dispatch on funct3 to
load-byte (`000`) or load-word (`010`). -/
def handle_other_i_type_instruction (cpu : Cpu) (instruction : Nat) : Except CpuError Cpu :=
  if funct3_field instruction = 0b000 then handle_load_byte cpu instruction
  else if funct3_field instruction = 0b010 then handle_load_word cpu instruction
  else .error .unimplemented

/-- handle_ecall_write (cpu.rs): asserts `a7 == ECALL_WRITE`, reads the file
descriptor from `a0` (masked, then ignored), the buffer pointer from `a1`
and the length from `a2`, slices that byte range out of memory (panic —
`outOfBounds` — if out of range), decodes it as UTF-8 (panic —
`malformedOutput` — if invalid), and sends one `Write` event. -/
def handle_ecall_write (cpu : Cpu) : Except CpuError (Cpu × List CpuEvent) :=
  if cpu.gprs a7 ≠ ECALL_WRITE then .error .assertionFailed
  else
    match readRange cpu.memory (cpu.gprs a1) (cpu.gprs a1 + cpu.gprs a2) with
    | none => .error .outOfBounds
    | some text_bytes =>
        match utf8Decode text_bytes with
        | none => .error .malformedOutput
        | some text => .ok (cpu, [CpuEvent.Write text])

/-- handle_ecall_exit (cpu.rs): asserts `a7 == ECALL_EXIT`, reads the exit
code from `a0` truncated to `i32`, clears `is_running`, records the exit
code, and sends one `Exit` event. -/
def handle_ecall_exit (cpu : Cpu) : Except CpuError (Cpu × List CpuEvent) :=
  if cpu.gprs a7 ≠ ECALL_EXIT then .error .assertionFailed
  else
    .ok
      ({ cpu with
          is_running := false
          exit_code := wrapI32 ((cpu.gprs a0 : Nat) : Int) },
        [CpuEvent.Exit (wrapI32 ((cpu.gprs a0 : Nat) : Int))])

/-- handle_ecall (cpu.rs): dispatch on the syscall number in `a7`
(64 → write, 93 → exit, anything else panics). -/
def handle_ecall (cpu : Cpu) : Except CpuError (Cpu × List CpuEvent) :=
  if cpu.gprs a7 = 64 then handle_ecall_write cpu
  else if cpu.gprs a7 = 93 then handle_ecall_exit cpu
  else .error .unimplemented

/-- handle_ebreak (cpu.rs): currently a no-op placeholder. -/
def handle_ebreak (cpu : Cpu) : Except CpuError (Cpu × List CpuEvent) :=
  .ok (cpu, [])

/-- handle_system_instruction (cpu.rs): asserts the SYSTEM opcode,
`rd == 0`, and `funct3 == 0`, then dispatches on the 12-bit immediate to
`ecall` (0) or `ebreak` (1). -/
def handle_system_instruction (cpu : Cpu) (instruction : Nat) :
    Except CpuError (Cpu × List CpuEvent) :=
  if instruction &&& 0x7f ≠ 0b1110011 then .error .assertionFailed
  else if rd_field instruction ≠ 0 then .error .assertionFailed
  else if funct3_field instruction ≠ 0b000 then .error .assertionFailed
  else if imm_i_field instruction = 0x000 then handle_ecall cpu
  else if imm_i_field instruction = 0x001 then handle_ebreak cpu
  else .error .unimplemented

/-- Opcode dispatch of `tick` (cpu.rs, the `match instruction & 0x7f`
block): routes to the five implemented opcode families, pairing the
non-system handlers with an empty event list. -/
def execInstruction (cpu : Cpu) (instruction : Nat) :
    Except CpuError (Cpu × List CpuEvent) :=
  if instruction &&& 0x7f = 0b0110111 then
    match handle_load_upper_immediate cpu instruction with
    | .error e => .error e
    | .ok cpu2 => .ok (cpu2, [])
  else if instruction &&& 0x7f = 0b0010011 then
    match handle_i_type_instruction cpu instruction with
    | .error e => .error e
    | .ok cpu2 => .ok (cpu2, [])
  else if instruction &&& 0x7f = 0b1110011 then
    handle_system_instruction cpu instruction
  else if instruction &&& 0x7f = 0b0011011 then
    match handle_op32_type_instruction cpu instruction with
    | .error e => .error e
    | .ok cpu2 => .ok (cpu2, [])
  else if instruction &&& 0x7f = 0b0000011 then
    match handle_other_i_type_instruction cpu instruction with
    | .error e => .error e
    | .ok cpu2 => .ok (cpu2, [])
  else .error .unimplemented

/-- The 32-bit word `tick` fetches: the 4 bytes at `pc`, little-endian. -/
def fetched (cpu : Cpu) : Nat :=
  u32_from_le_bytes ((cpu.memory.drop cpu.pc).take 4)

/-- Cpu.tick (cpu.rs): fetch (fatal `outOfBounds` when `pc + 4` exceeds the
memory size), decode, dispatch, then advance `pc` by the word size (wrapping
`u64` addition). -/
def tick (cpu : Cpu) : Except CpuError (Cpu × List CpuEvent) :=
  if cpu.pc + 4 > cpu.memory.length then .error .outOfBounds
  else
    match execInstruction cpu (fetched cpu) with
    | .error e => .error e
    | .ok (cpu2, events) =>
        .ok ({ cpu2 with pc := (cpu2.pc + 4) % 2 ^ 64 }, events)

/-!
Program loader (cpu.rs `load_program`).  ELF parsing itself is done by the
external goblin crate; the loader logic of this repository receives the
parsed image: class flag, entry point, and program headers.
-/

/-- Value of `goblin::elf::program_header::PT_LOAD`. -/
def PT_LOAD : Nat := 1

/-- The fields of a parsed ELF program header that `load_program` reads. -/
structure Phdr where
  p_type : Nat
  p_offset : Nat
  p_vaddr : Nat
  p_filesz : Nat
  p_memsz : Nat
deriving DecidableEq, Repr

/-- The fields of a parsed 64-bit ELF image that `load_program` reads. -/
structure ElfImage where
  is64 : Bool
  entry : Nat
  program_headers : List Phdr
deriving DecidableEq, Repr

/-- Loader failures: the `is_64` assertion, the explicit bounds error, the
panic from slicing the input buffer out of range, and the
`copy_from_slice` length-mismatch panic. -/
inductive LoadError where
  | not64Bit
  | outOfBounds
  | sliceOutOfRange
  | copyLengthMismatch
deriving DecidableEq, Repr

/-- The `PT_LOAD` segment-copy loop of `load_program` (cpu.rs): for each
loadable header, checks `p_vaddr + p_memsz` against the memory size, slices
`program[p_offset .. p_offset + p_filesz]`, and copies it over
`memory[p_vaddr .. p_vaddr + p_memsz]` (`copy_from_slice` panics unless the
two lengths agree). -/
def load_segments (mem program : List Nat) : List Phdr → Except LoadError (List Nat)
  | [] => .ok mem
  | phdr :: rest =>
    if phdr.p_type ≠ PT_LOAD then load_segments mem program rest
    else
      let start_address := phdr.p_vaddr
      let end_address := start_address + phdr.p_memsz
      if end_address > mem.length then .error .outOfBounds
      else
        match readRange program phdr.p_offset (phdr.p_offset + phdr.p_filesz) with
        | none => .error .sliceOutOfRange
        | some data =>
            if data.length ≠ end_address - start_address then .error .copyLengthMismatch
            else load_segments (writeRange mem start_address data) program rest

/-- Cpu.load_program (cpu.rs): asserts a 64-bit image, copies every
`PT_LOAD` segment, then sets `pc` to the image's entry point. -/
def load_program (cpu : Cpu) (elf : ElfImage) (program : List Nat) :
    Except LoadError Cpu :=
  if ¬ elf.is64 then .error .not64Bit
  else
    match load_segments cpu.memory program elf.program_headers with
    | .error e => .error e
    | .ok mem2 => .ok { cpu with memory := mem2, pc := elf.entry }

/-!
Write observation: `destValue cpu instruction` is the value the fetched
instruction's handler stores into `gprs[rd]` when it executes successfully,
read off the handler bodies in cpu.rs; `none` for the non-writing system
family and for unimplemented encodings, and for loads whose memory access
fails. -/

/-- The value the instruction stores into its destination register, per
opcode family (cpu.rs handler bodies). -/
def destValue (cpu : Cpu) (instruction : Nat) : Option Nat :=
  if instruction &&& 0x7f = 0b0110111 then some (lui_value instruction)
  else if instruction &&& 0x7f = 0b0010011 then
    if funct3_field instruction = 0b000 then some (addi_value cpu instruction)
    else none
  else if instruction &&& 0x7f = 0b0011011 then
    if funct3_field instruction = 0b000 then some (addiw_value cpu instruction)
    else none
  else if instruction &&& 0x7f = 0b0000011 then
    if funct3_field instruction = 0b000 then
      cpu.memory.get? (load_effective_address cpu instruction)
    else if funct3_field instruction = 0b010 then
      (readRange cpu.memory (load_effective_address cpu instruction)
        (load_effective_address cpu instruction + 4)).map u32_from_le_bytes
    else none
  else none

/-!
Concrete machine states used to evaluate the emulator on specific inputs.
Instruction words are laid out in memory as little-endian bytes.
-/

/-- Machine with `lui x1, 0x1` (word `0x000010B7`) at address 0. -/
def luiExampleState : Cpu :=
  { gprs := fun _ => 0
    pc := 0
    memory := [0xB7, 0x10, 0x00, 0x00]
    is_running := true
    exit_code := 0 }

/-- Machine with `addi x1, x0, -1` (word `0xFFF00093`, immediate field
`0xFFF`) at address 0. -/
def addiNegExampleState : Cpu :=
  { gprs := fun _ => 0
    pc := 0
    memory := [0x93, 0x00, 0xF0, 0xFF]
    is_running := true
    exit_code := 0 }

/-- Machine with `addiw x1, x0, -1` (word `0xFFF0009B`, immediate field
`0xFFF`) at address 0. -/
def addiwNegExampleState : Cpu :=
  { gprs := fun _ => 0
    pc := 0
    memory := [0x9B, 0x00, 0xF0, 0xFF]
    is_running := true
    exit_code := 0 }

/-- Machine with `ecall` (word `0x00000073`) at address 0 followed by
`addi x1, x0, 5` (word `0x00500093`) at address 4, with `a7 = 93` (exit
syscall number) and `a0 = 42`. -/
def exitExampleState : Cpu :=
  { gprs := setReg (setReg (fun _ => 0) a7 93) a0 42
    pc := 0
    memory := [0x73, 0x00, 0x00, 0x00, 0x93, 0x00, 0x50, 0x00]
    is_running := true
    exit_code := 0 }

/-- The state `tick` produces from `exitExampleState`: halted with exit code
42 and `pc` advanced past the `ecall`. -/
def exitHaltedState : Cpu :=
  { exitExampleState with pc := 4, is_running := false, exit_code := 42 }

/-- Machine with `ecall` at address 0, `a7 = 64` (write syscall number),
`a0 = 1`, `a1 = 4` pointing at the bytes of `"Hi"`, and `a2 = 2`. -/
def writeExampleState : Cpu :=
  { gprs := setReg (setReg (setReg (setReg (fun _ => 0) a7 64) a0 1) a1 4) a2 2
    pc := 0
    memory := [0x73, 0x00, 0x00, 0x00, 0x48, 0x69]
    is_running := true
    exit_code := 0 }

/-- Machine with `addi x1, x0, 5` (word `0x00500093`) at address 0. -/
def addiFiveState : Cpu :=
  { gprs := fun _ => 0
    pc := 0
    memory := [0x93, 0x00, 0x50, 0x00]
    is_running := true
    exit_code := 0 }

/-- The state `tick` produces from `addiFiveState`: `x1 = 5`, `pc = 4`. -/
def addiFiveResult : Cpu :=
  { addiFiveState with gprs := setReg addiFiveState.gprs 1 5, pc := 4 }

/-- Memory of size 16 with `pc = 14`: a fetch would need bytes 14–17. -/
def oobExampleState : Cpu :=
  { gprs := fun _ => 0
    pc := 14
    memory := List.replicate 16 0
    is_running := true
    exit_code := 0 }


/-!
Claim theorems.
-/

/-- C9: for each width `w ∈ {8, 16, 32, 64}`, the sign-extension function at
size `w` maps the all-ones pattern to `-1`, the all-zero pattern to `0`, the
maximum positive `w`-bit value to itself, and the minimum negative `w`-bit
value to the correctly widened negative value. -/
theorem sign_extend_round_trips :
    (sign_extend_u8_to_i8 0xff 8 = -1 ∧ sign_extend_u8_to_i8 0x00 8 = 0 ∧
      sign_extend_u8_to_i8 0x7f 8 = 127 ∧ sign_extend_u8_to_i8 0x80 8 = -128) ∧
    (sign_extend_u16_to_i16 0xffff 16 = -1 ∧ sign_extend_u16_to_i16 0x0000 16 = 0 ∧
      sign_extend_u16_to_i16 0x7fff 16 = 32767 ∧
      sign_extend_u16_to_i16 0x8000 16 = -32768) ∧
    (sign_extend_u32_to_i32 0xffffffff 32 = -1 ∧ sign_extend_u32_to_i32 0 32 = 0 ∧
      sign_extend_u32_to_i32 0x7fffffff 32 = 2147483647 ∧
      sign_extend_u32_to_i32 0x80000000 32 = -2147483648) ∧
    (sign_extend_u64_to_i64 0xffffffffffffffff 64 = -1 ∧
      sign_extend_u64_to_i64 0 64 = 0 ∧
      sign_extend_u64_to_i64 0x7fffffffffffffff 64 = 9223372036854775807 ∧
      sign_extend_u64_to_i64 0x8000000000000000 64 = -9223372036854775808) := by
  decide

/-- C7: when `pc + 4` exceeds the memory size, `tick` fails with
`outOfBounds` at the fetch step: no state is produced, so no register or
memory mutation occurs and no byte past the end is read. -/
theorem fetch_out_of_bounds (cpu : Cpu) (h : cpu.pc + 4 > cpu.memory.length) :
    tick cpu = .error .outOfBounds := by
  unfold tick
  rw [if_pos h]

/-- Witness for C7: memory of size 16 with `pc = 14` fails the fetch. -/
theorem fetch_out_of_bounds_witness :
    tick oobExampleState = .error .outOfBounds :=
  fetch_out_of_bounds oobExampleState (by decide)

/-- C10: `Cpu.new size` has all 32 registers zero, `pc = 0`, `is_running`
set, exit code 0, a memory of exactly the requested size, and every byte of
that memory zero, so any in-bounds load before any store reads 0. -/
theorem cpu_new_zero_initialised (size : Nat) :
    (Cpu.new size).pc = 0 ∧
    (Cpu.new size).is_running = true ∧
    (Cpu.new size).exit_code = 0 ∧
    (Cpu.new size).memory.length = size ∧
    (∀ r, r < 32 → (Cpu.new size).gprs r = 0) ∧
    (∀ addr, addr < size → (Cpu.new size).memory[addr]? = some 0) := by
  refine ⟨rfl, rfl, rfl, ?_, fun r _ => rfl, fun addr h => ?_⟩
  · simp [Cpu.new]
  · simp [Cpu.new, List.getElem?_replicate, h]

/-- Witness for C10: the size-4 machine has register 7 and byte 2 zero. -/
theorem cpu_new_zero_initialised_witness :
    (Cpu.new 4).gprs 7 = 0 ∧ (Cpu.new 4).memory[2]? = some 0 :=
  ⟨(cpu_new_zero_initialised 4).2.2.2.2.1 7 (by decide),
    (cpu_new_zero_initialised 4).2.2.2.2.2 2 (by decide)⟩

/-- C1 (code evaluation): executing `lui x1, 0x1` (word `0x000010B7`) sets
`x1` to `0x10B7000`, not `0x1000`: `handle_load_upper_immediate` masks the
low 20 bits of the whole word (`instruction & 0xFFFFF`, bits 0–19, which
include the opcode and `rd` fields) instead of bits 12–31 before shifting
left by 12. -/
theorem lui_shifts_low_bits :
    Except.map (fun p => p.1.gprs 1) (tick luiExampleState) = .ok 0x10B7000 ∧
    (0x10B7000 : Nat) ≠ 0x1000 := by
  constructor
  · rfl
  · decide

/-- C2 (code evaluation): executing `addi x1, x0, -1` (word `0xFFF00093`,
immediate field `0xFFF`) sets `x1` to `4095`, not `2^64 - 1`:
`handle_addi` calls `sign_extend_u64_to_i64(imm, 20)` on the 12-bit
immediate, and since bit 19 of a 12-bit value is always clear, the
immediate is never sign-extended. -/
theorem addi_immediate_not_sign_extended :
    Except.map (fun p => p.1.gprs 1) (tick addiNegExampleState) = .ok 4095 ∧
    (4095 : Nat) ≠ 2 ^ 64 - 1 := by
  constructor
  · rfl
  · decide

/-- C5 (code evaluation): executing `addiw x1, x0, -1` (word `0xFFF0009B`,
immediate field `0xFFF`) sets `x1` to `4095`, not `2^64 - 1`:
`handle_addiw` calls `sign_extend_u64_to_i64(imm, 20)` on the 12-bit
immediate, so the immediate is treated as the unsigned value `4095` instead
of `-1`. -/
theorem addiw_immediate_not_sign_extended :
    Except.map (fun p => p.1.gprs 1) (tick addiwNegExampleState) = .ok 4095 ∧
    (4095 : Nat) ≠ 2 ^ 64 - 1 := by
  constructor
  · rfl
  · decide

/-- C3 (code evaluation): with `a7 = 93` and `a0 = 42`, executing `ecall`
emits exactly one `Exit 42` event and clears `is_running`; but the driver
loop in main.rs (`loop { cpu.tick(); }`) never consults `is_halted`, so the
next `tick` still executes the following instruction (`addi x1, x0, 5`
lands in `x1`) even though the machine is halted. -/
theorem ecall_exit_then_next_instruction_still_executes :
    tick exitExampleState = .ok (exitHaltedState, [CpuEvent.Exit 42]) ∧
    exitHaltedState.is_running = false ∧
    Except.map (fun p => (p.1.gprs 1, p.1.is_running)) (tick exitHaltedState) =
      .ok (5, false) := by
  refine ⟨rfl, rfl, ?_⟩
  rfl

/-- C8: from any state whose next instruction is `ecall` with `a7 = 64`
(write syscall), `a2 = 2`, and `a1` pointing at the in-bounds bytes of
`"Hi"`, `tick` emits exactly one `Write "Hi"` event, leaves the registers,
memory, `is_running` and `exit_code` unchanged, and only advances `pc`;
the file descriptor in `a0` is not inspected. -/
theorem ecall_write_emits_hi (cpu : Cpu)
    (hpc : cpu.pc + 4 ≤ cpu.memory.length)
    (hins : (cpu.memory.drop cpu.pc).take 4 = [0x73, 0x00, 0x00, 0x00])
    (ha7 : cpu.gprs a7 = 64)
    (hlen : cpu.gprs a2 = 2)
    (hbuf : cpu.gprs a1 + 2 ≤ cpu.memory.length)
    (hHi : (cpu.memory.drop (cpu.gprs a1)).take 2 = [0x48, 0x69]) :
    tick cpu =
      .ok ({ cpu with pc := (cpu.pc + 4) % 2 ^ 64 }, [CpuEvent.Write [72, 105]]) := by
  have hfetch : fetched cpu = 115 := by
    unfold fetched
    rw [hins]
    decide
  have hexec : execInstruction cpu 115 = handle_ecall cpu := rfl
  have hrange : readRange cpu.memory (cpu.gprs a1) (cpu.gprs a1 + cpu.gprs a2) =
      some [0x48, 0x69] := by
    rw [hlen]
    unfold readRange
    rw [if_pos ⟨by omega, hbuf⟩, Nat.add_sub_cancel_left]
    exact congrArg some hHi
  have hwrite : handle_ecall cpu = .ok (cpu, [CpuEvent.Write [72, 105]]) := by
    unfold handle_ecall handle_ecall_write
    simp only [ha7, hrange]
    rfl
  unfold tick
  rw [if_neg (by omega), hfetch, hexec, hwrite]

/-- Witness for C8: the concrete machine with `ecall` at 0 and `"Hi"` at
address 4 emits exactly `Write "Hi"` and stays running. -/
theorem ecall_write_emits_hi_witness :
    tick writeExampleState =
      .ok ({ writeExampleState with pc := (writeExampleState.pc + 4) % 2 ^ 64 },
        [CpuEvent.Write [72, 105]]) :=
  ecall_write_emits_hi writeExampleState (by decide) (by decide) (by decide)
    (by decide) (by decide) (by decide)

/-- C6: loading a 64-bit image whose single `PT_LOAD` segment has
`p_vaddr = 0x1000`, `p_filesz = p_memsz = N` (with `0x1000 + N` within the
memory and the segment's source range within the input buffer) and entry
point `0x1000` succeeds; afterwards memory bytes `[0x1000, 0x1000 + N)`
equal the segment's source bytes and `pc` equals the entry point `0x1000`. -/
theorem load_program_single_segment (cpu : Cpu) (program : List Nat) (off N : Nat)
    (hmem : 0x1000 + N ≤ cpu.memory.length)
    (hprog : off + N ≤ program.length) :
    ∃ cpu2,
      load_program cpu ⟨true, 0x1000, [⟨PT_LOAD, off, 0x1000, N, N⟩]⟩ program =
        .ok cpu2 ∧
      cpu2.pc = 0x1000 ∧
      ∀ i, i < N → cpu2.memory[0x1000 + i]? = program[off + i]? := by
  have hdata : readRange program off (off + N) = some ((program.drop off).take N) := by
    unfold readRange
    rw [if_pos ⟨by omega, hprog⟩, Nat.add_sub_cancel_left]
  have hlen_data : ((program.drop off).take N).length = N := by
    simp only [List.length_take, List.length_drop]
    omega
  have hseg : load_segments cpu.memory program [⟨PT_LOAD, off, 0x1000, N, N⟩] =
      .ok (writeRange cpu.memory 0x1000 ((program.drop off).take N)) := by
    unfold load_segments
    simp only [hdata, hlen_data]
    rw [if_neg (by simp), if_neg (by omega), if_neg (by omega)]
    rfl
  refine ⟨{ cpu with
      memory := writeRange cpu.memory 0x1000 ((program.drop off).take N),
      pc := 0x1000 }, ?_, rfl, ?_⟩
  · unfold load_program
    rw [if_neg (by simp), hseg]
  · intro i hi
    unfold writeRange
    have htake : (cpu.memory.take 0x1000).length = 0x1000 := by
      simp only [List.length_take]
      omega
    have hfront : 0x1000 + i < (cpu.memory.take 0x1000 ++ (program.drop off).take N).length := by
      simp only [List.length_append, htake, hlen_data]
      omega
    have hback : (cpu.memory.take 0x1000).length ≤ 0x1000 + i := by
      rw [htake]
      omega
    rw [List.getElem?_append_left hfront, List.getElem?_append_right hback, htake]
    have hidx : 0x1000 + i - 0x1000 = i := by omega
    rw [hidx, List.getElem?_take_of_lt hi, List.getElem?_drop]

/-- Witness for C6: loading a 2-byte segment `[7, 9]` at `0x1000` into a
fresh 4098-byte machine. -/
theorem load_program_single_segment_witness :
    ∃ cpu2,
      load_program (Cpu.new 4098) ⟨true, 0x1000, [⟨PT_LOAD, 0, 0x1000, 2, 2⟩]⟩ [7, 9] =
        .ok cpu2 ∧
      cpu2.pc = 0x1000 ∧
      ∀ i, i < 2 → cpu2.memory[0x1000 + i]? = ([7, 9] : List Nat)[0 + i]? :=
  load_program_single_segment (Cpu.new 4098) [7, 9] 0 2
    (by
      show 0x1000 + 2 ≤ (List.replicate 4098 (0 : Nat)).length
      rw [List.length_replicate])
    (by decide)

/-- A successful LUI either hits the `rd == 0` early return or stores
`lui_value` into `rd`. -/
theorem handle_lui_cases (cpu c2 : Cpu) (ins : Nat)
    (h : handle_load_upper_immediate cpu ins = .ok c2) :
    (rd_field ins = 0 ∧ c2 = cpu) ∨
    (rd_field ins ≠ 0 ∧
      c2 = { cpu with gprs := setReg cpu.gprs (rd_field ins) (lui_value ins) }) := by
  unfold handle_load_upper_immediate at h
  split at h
  · exact absurd h (by simp)
  · split at h
    · exact Or.inl ⟨by assumption, (Except.ok.inj h).symm⟩
    · exact Or.inr ⟨by assumption, (Except.ok.inj h).symm⟩

/-- A successful ADDI either hits the `rd == 0` early return or stores
`addi_value` into `rd`. -/
theorem handle_addi_cases (cpu c2 : Cpu) (ins : Nat)
    (h : handle_addi cpu ins = .ok c2) :
    (rd_field ins = 0 ∧ c2 = cpu) ∨
    (rd_field ins ≠ 0 ∧
      c2 = { cpu with gprs := setReg cpu.gprs (rd_field ins) (addi_value cpu ins) }) := by
  unfold handle_addi at h
  split at h
  · exact Or.inl ⟨by assumption, (Except.ok.inj h).symm⟩
  · exact Or.inr ⟨by assumption, (Except.ok.inj h).symm⟩

/-- A successful ADDIW either hits the `rd == 0` early return or stores
`addiw_value` into `rd`. -/
theorem handle_addiw_cases (cpu c2 : Cpu) (ins : Nat)
    (h : handle_addiw cpu ins = .ok c2) :
    (rd_field ins = 0 ∧ c2 = cpu) ∨
    (rd_field ins ≠ 0 ∧
      c2 = { cpu with gprs := setReg cpu.gprs (rd_field ins) (addiw_value cpu ins) }) := by
  unfold handle_addiw at h
  split at h
  · exact Or.inl ⟨by assumption, (Except.ok.inj h).symm⟩
  · exact Or.inr ⟨by assumption, (Except.ok.inj h).symm⟩

/-- A successful load-byte either hits the `rd == 0` early return or stores
the byte read at the effective address into `rd`. -/
theorem handle_load_byte_cases (cpu c2 : Cpu) (ins : Nat)
    (h : handle_load_byte cpu ins = .ok c2) :
    (rd_field ins = 0 ∧ c2 = cpu) ∨
    (rd_field ins ≠ 0 ∧ ∃ b,
      cpu.memory.get? (load_effective_address cpu ins) = some b ∧
      c2 = { cpu with gprs := setReg cpu.gprs (rd_field ins) b }) := by
  unfold handle_load_byte at h
  split at h
  · exact absurd h (by simp)
  · split at h
    · exact Or.inl ⟨by assumption, (Except.ok.inj h).symm⟩
    · split at h
      · exact absurd h (by simp)
      · next b hb =>
          exact Or.inr ⟨by assumption, b, hb, (Except.ok.inj h).symm⟩

/-- A successful load-word either hits the `rd == 0` early return or stores
the little-endian word read at the effective address into `rd`. -/
theorem handle_load_word_cases (cpu c2 : Cpu) (ins : Nat)
    (h : handle_load_word cpu ins = .ok c2) :
    (rd_field ins = 0 ∧ c2 = cpu) ∨
    (rd_field ins ≠ 0 ∧ ∃ bs,
      readRange cpu.memory (load_effective_address cpu ins)
        (load_effective_address cpu ins + 4) = some bs ∧
      c2 = { cpu with gprs := setReg cpu.gprs (rd_field ins) (u32_from_le_bytes bs) }) := by
  unfold handle_load_word at h
  split at h
  · exact absurd h (by simp)
  · split at h
    · exact Or.inl ⟨by assumption, (Except.ok.inj h).symm⟩
    · split at h
      · exact absurd h (by simp)
      · next bs hbs =>
          exact Or.inr ⟨by assumption, bs, hbs, (Except.ok.inj h).symm⟩

/-- A successful system instruction never touches the register file. -/
theorem handle_system_gprs (cpu c2 : Cpu) (evs : List CpuEvent) (ins : Nat)
    (h : handle_system_instruction cpu ins = .ok (c2, evs)) :
    c2.gprs = cpu.gprs := by
  unfold handle_system_instruction handle_ecall handle_ecall_write handle_ecall_exit
    handle_ebreak at h
  repeat' split at h
  all_goals simp_all
  obtain ⟨h1, -⟩ := h
  rw [← h1]

/-- A successful dispatch either leaves the register file unchanged (with
`rd == 0` or no destination value defined) or stores exactly the
destination value of the fetched instruction into its `rd`. -/
theorem execInstruction_gprs (cpu c2 : Cpu) (evs : List CpuEvent) (ins : Nat)
    (h : execInstruction cpu ins = .ok (c2, evs)) :
    (c2.gprs = cpu.gprs ∧ (rd_field ins = 0 ∨ destValue cpu ins = none)) ∨
    (rd_field ins ≠ 0 ∧ ∃ v, destValue cpu ins = some v ∧
      c2.gprs = setReg cpu.gprs (rd_field ins) v) := by
  unfold execInstruction at h
  by_cases hop1 : ins &&& 0x7f = 0b0110111
  · rw [if_pos hop1] at h
    split at h
    · exact absurd h (by simp)
    · rename_i cpu2 heq
      have hc : cpu2 = c2 := ((Prod.mk.injEq _ _ _ _).mp (Except.ok.inj h)).1
      rcases handle_lui_cases cpu cpu2 ins heq with ⟨h0, hcc⟩ | ⟨hrd, hcc⟩
      · refine Or.inl ⟨?_, Or.inl h0⟩
        rw [← hc, hcc]
      · refine Or.inr ⟨hrd, lui_value ins, ?_, ?_⟩
        · unfold destValue
          rw [if_pos hop1]
        · rw [← hc, hcc]
  · rw [if_neg hop1] at h
    by_cases hop2 : ins &&& 0x7f = 0b0010011
    · rw [if_pos hop2] at h
      split at h
      · exact absurd h (by simp)
      · rename_i cpu2 heq
        have hc : cpu2 = c2 := ((Prod.mk.injEq _ _ _ _).mp (Except.ok.inj h)).1
        unfold handle_i_type_instruction at heq
        split at heq
        · rename_i hf3
          rcases handle_addi_cases cpu cpu2 ins heq with ⟨h0, hcc⟩ | ⟨hrd, hcc⟩
          · refine Or.inl ⟨?_, Or.inl h0⟩
            rw [← hc, hcc]
          · refine Or.inr ⟨hrd, addi_value cpu ins, ?_, ?_⟩
            · unfold destValue
              rw [if_neg hop1, if_pos hop2, if_pos hf3]
            · rw [← hc, hcc]
        · exact absurd heq (by simp)
    · rw [if_neg hop2] at h
      by_cases hop3 : ins &&& 0x7f = 0b1110011
      · rw [if_pos hop3] at h
        have hdv : destValue cpu ins = none := by
          unfold destValue
          rw [if_neg hop1, if_neg hop2]
          rw [if_neg (by intro hc; rw [hc] at hop3; exact absurd hop3 (by decide))]
          rw [if_neg (by intro hc; rw [hc] at hop3; exact absurd hop3 (by decide))]
        exact Or.inl ⟨handle_system_gprs cpu c2 evs ins h, Or.inr hdv⟩
      · rw [if_neg hop3] at h
        by_cases hop4 : ins &&& 0x7f = 0b0011011
        · rw [if_pos hop4] at h
          split at h
          · exact absurd h (by simp)
          · rename_i cpu2 heq
            have hc : cpu2 = c2 := ((Prod.mk.injEq _ _ _ _).mp (Except.ok.inj h)).1
            unfold handle_op32_type_instruction at heq
            split at heq
            · rename_i hf3
              rcases handle_addiw_cases cpu cpu2 ins heq with ⟨h0, hcc⟩ | ⟨hrd, hcc⟩
              · refine Or.inl ⟨?_, Or.inl h0⟩
                rw [← hc, hcc]
              · refine Or.inr ⟨hrd, addiw_value cpu ins, ?_, ?_⟩
                · unfold destValue
                  rw [if_neg hop1, if_neg hop2, if_pos hop4, if_pos hf3]
                · rw [← hc, hcc]
            · exact absurd heq (by simp)
        · rw [if_neg hop4] at h
          by_cases hop5 : ins &&& 0x7f = 0b0000011
          · rw [if_pos hop5] at h
            split at h
            · exact absurd h (by simp)
            · rename_i cpu2 heq
              have hc : cpu2 = c2 := ((Prod.mk.injEq _ _ _ _).mp (Except.ok.inj h)).1
              unfold handle_other_i_type_instruction at heq
              split at heq
              · rename_i hf3
                rcases handle_load_byte_cases cpu cpu2 ins heq with ⟨h0, hcc⟩ | ⟨hrd, b, hb, hcc⟩
                · refine Or.inl ⟨?_, Or.inl h0⟩
                  rw [← hc, hcc]
                · refine Or.inr ⟨hrd, b, ?_, ?_⟩
                  · unfold destValue
                    rw [if_neg hop1, if_neg hop2, if_neg hop4, if_pos hop5, if_pos hf3]
                    exact hb
                  · rw [← hc, hcc]
              · split at heq
                · rename_i hf3
                  rcases handle_load_word_cases cpu cpu2 ins heq with
                    ⟨h0, hcc⟩ | ⟨hrd, bs, hbs, hcc⟩
                  · refine Or.inl ⟨?_, Or.inl h0⟩
                    rw [← hc, hcc]
                  · refine Or.inr ⟨hrd, u32_from_le_bytes bs, ?_, ?_⟩
                    · unfold destValue
                      rw [if_neg hop1, if_neg hop2, if_neg hop4, if_pos hop5]
                      rw [if_neg (by assumption), if_pos hf3, hbs]
                      rfl
                    · rw [← hc, hcc]
                · exact absurd heq (by simp)
          · rw [if_neg hop5] at h
            exact absurd h (by simp)

/-- C4: for every state with `gprs[0] == 0`, any instruction `tick` executes
successfully leaves `gprs[0] == 0` (every handler silently discards a write
whose destination field is 0), while for every destination register
`rd ≠ 0` the value a valid writing instruction produces (`destValue`) is
observed in `gprs[rd]` afterwards. -/
theorem register_zero_hardwired (cpu c2 : Cpu) (evs : List CpuEvent)
    (h : tick cpu = .ok (c2, evs)) :
    (cpu.gprs 0 = 0 → c2.gprs 0 = 0) ∧
    (∀ v, rd_field (fetched cpu) ≠ 0 → destValue cpu (fetched cpu) = some v →
      c2.gprs (rd_field (fetched cpu)) = v) := by
  unfold tick at h
  split at h
  · exact absurd h (by simp)
  · split at h
    · exact absurd h (by simp)
    · rename_i cpu2 events heq
      have hc : c2 = { cpu2 with pc := (cpu2.pc + 4) % 2 ^ 64 } :=
        (((Prod.mk.injEq _ _ _ _).mp (Except.ok.inj h)).1).symm
      have hg : c2.gprs = cpu2.gprs := by rw [hc]
      rcases execInstruction_gprs cpu cpu2 events (fetched cpu) heq with
        ⟨hsame, hside⟩ | ⟨hrd, v, hdv, hset⟩
      · constructor
        · intro h0
          rw [hg, hsame]
          exact h0
        · intro v hrd hdv
          rcases hside with h0 | hnone
          · exact absurd h0 hrd
          · rw [hnone] at hdv
            exact absurd hdv (by simp)
      · constructor
        · intro h0
          rw [hg, hset]
          unfold setReg
          rw [if_neg (fun hx => hrd hx.symm)]
          exact h0
        · intro v2 hrd2 hdv2
          rw [hdv] at hdv2
          rw [hg, hset]
          unfold setReg
          rw [if_pos rfl]
          exact (Option.some.inj hdv2)

/-- Witness for C4: executing `addi x1, x0, 5` leaves `x0` at 0 and makes
the write to `x1` observable as the value 5. -/
theorem register_zero_hardwired_witness :
    addiFiveResult.gprs 0 = 0 ∧ addiFiveResult.gprs 1 = 5 := by
  have h : tick addiFiveState = .ok (addiFiveResult, []) := rfl
  have hmain := register_zero_hardwired addiFiveState addiFiveResult [] h
  refine ⟨hmain.1 rfl, ?_⟩
  have hrd : rd_field (fetched addiFiveState) = 1 := by decide
  have hv := hmain.2 5 (by decide) (by decide)
  rw [hrd] at hv
  exact hv
